import Mathlib

/-!
# A verification development for the "moist" fluid-intake tracker core

This file shallowly embeds the record codec and calendar core of the
tracker (`classes.js`) and proves properties of it.

Modelling conventions:

* A JavaScript string is a sequence of 16-bit code units; we model it as
  `List Nat` (every element `< 65536` for a real string).  `charCodeAt(i)`
  on a missing position yields `NaN`; in every place the source then
  coerces that `NaN` with `|| 0`, `& mask`, `>> k` or `Number(x) || 0`,
  all of which produce `0`, so missing words are modelled by `getD 0`.
* Amounts carry one decimal digit and are stored as `amount * 10` in a
  16-bit word.  For every integer `n` in `0..65535` the double arithmetic
  `(n / 10) * 10` is exactly `n`, so amounts are modelled exactly as
  *tenths* (`Nat`), and the in-memory float `amount` is `tenths / 10 : ℚ`.
* Other numeric fields are `Nat`/`Int`/`ℚ` with the source's clamping made
  explicit; `Math.round` is `⌊x + 1/2⌋` (round half toward +∞).
* A thrown `TypeError` is modelled by `Except.error JsError.typeError`.
-/

namespace Moist

/-- The JavaScript exceptions the modelled code can actually raise. -/
inductive JsError where
  | typeError
deriving DecidableEq, Repr

/-- `Math.round`: round half toward positive infinity. -/
def jsRound (x : ℚ) : ℤ := ⌊x + 1/2⌋

/-- Lowercase code unit of the hexadecimal digit `n` (for `n < 16`),
as produced by `Number.prototype.toString(16)`. -/
def hexDigitChar (n : Nat) : Nat := if n < 10 then 48 + n else 87 + n

/-- Is `c` the code unit of a lowercase hexadecimal digit (`0-9`, `a-f`)? -/
def isHexLower (c : Nat) : Bool := (48 ≤ c && c ≤ 57) || (97 ≤ c && c ≤ 102)

/-- Numeric value of a hexadecimal digit code unit (as read by `parseInt`). -/
def hexDigitVal (c : Nat) : Nat := if c ≤ 57 then c - 48 else c - 87

/-- `n.toString(16).padStart(3, "0")` for `n < 4096`: the three nibbles. -/
def toHex3 (n : Nat) : List Nat :=
  [hexDigitChar (n / 256 % 16), hexDigitChar (n / 16 % 16), hexDigitChar (n % 16)]

/-- `String.prototype.toLowerCase` restricted to ASCII letters.  (The only
inputs whose behaviour matters are those that can pass the color regex
after lowercasing, and those are ASCII.) -/
def toLowerAscii (c : Nat) : Nat := if 65 ≤ c && c ≤ 90 then c + 32 else c

/-- The regex test `/^#[0-9a-f]{3}$/` on a (already lowercased) string:
exactly four code units, a `#` (35) and three lowercase hex digits. -/
def isValidColor (color : List Nat) : Bool :=
  match color with
  | [h, a, b, c] => h == 35 && isHexLower a && isHexLower b && isHexLower c
  | _ => false

/-- A `Fluid` object: name, color string, hydration ratio, visibility flag,
its pre-encoded record `data`, and its saved registry index (`-1` if not
saved), exactly the fields of the source class. -/
structure Fluid where
  name : List Nat
  color : List Nat
  hydration : ℚ
  alwaysShown : Bool
  data : List Nat
  index : ℤ
deriving DecidableEq, Repr

/-- `parseInt(color.substring(1, 4), 16)` on a validated color string:
the 12-bit value of the three digits after the `#`. -/
def parseColor12 (color : List Nat) : Nat :=
  match color with
  | [_, a, b, c] => hexDigitVal a * 256 + hexDigitVal b * 16 + hexDigitVal c
  | _ => 0

/-- The `Fluid` constructor: truncate the name to 31 units, lowercase and
validate the color (falling back to `"#999"`), clamp the hydration
percentage into `[0, 100]`, and pre-encode `data` as
`word[shown:1|pct:7|nameLen:5], word[color12], name...`.  The stored
`hydration` field is the ratio `pct / 100`; `index` starts at `-1`. -/
def mkFluid (nameIn colorIn : List Nat) (hydrationIn : ℤ) (alwaysShownIn : Bool) : Fluid :=
  let name := nameIn.take 31
  let lowered := colorIn.map toLowerAscii
  let color := if isValidColor lowered then lowered else [35, 57, 57, 57]
  let pct : Nat := (max 0 (min 100 hydrationIn)).toNat
  let w0 : Nat := (if alwaysShownIn then 32768 else 0) + pct * 256 + name.length
  { name := name
    color := color
    hydration := (pct : ℚ) / 100
    alwaysShown := alwaysShownIn
    data := w0 :: parseColor12 color :: name
    index := -1 }

/-- `Fluid.decode`: read the two header words (missing words read as `0`,
matching `NaN` flowing through `&`/`>>`), rebuild the color string from
the low 12 bits of word 2, extract visibility, clamped hydration and name
length from word 1, slice the name, and run the constructor. -/
def Fluid.decode (data : List Nat) : Fluid :=
  let c1 := (data.get? 1).getD 0
  let color := 35 :: toHex3 (c1 % 4096)
  let c0 := (data.get? 0).getD 0
  let shownBit := c0 / 32768
  let hydration := min 100 (c0 / 256 % 128)
  let nameLength := c0 % 32
  let name := (data.drop 2).take nameLength
  mkFluid name color (hydration : ℤ) (shownBit != 0)

/-- `Fluid.decodeCollection`'s loop: repeatedly decode a record from the
front of the buffer, advancing by the decoded fluid's own `data` length.
Every decoded record occupies at least its two header words, so the
cursor advances by at least two words per step and a fuel equal to the
buffer length can never run out; the fuel only makes the recursion
structural. -/
def Fluid.decodeCollectionGo : Nat → List Nat → List Fluid
  | 0, _ => []
  | _, [] => []
  | fuel + 1, data =>
    let item := Fluid.decode data
    item :: Fluid.decodeCollectionGo fuel (data.drop item.data.length)

/-- Assign each decoded fluid its position as `index`, as the
`item.index = index; ++index` statements of the source loop do. -/
def assignIndices (i : ℤ) : List Fluid → List Fluid
  | [] => []
  | f :: rest => { f with index := i } :: assignIndices (i + 1) rest

/-- `Fluid.decodeCollection`: `null` input gives the empty registry,
otherwise decode records until the buffer is exhausted, assigning
sequential indices. -/
def Fluid.decodeCollection (data : Option (List Nat)) : List Fluid :=
  match data with
  | none => []
  | some d => assignIndices 0 (Fluid.decodeCollectionGo d.length d)

/-- The loop body of `Fluid.save`, threading the registry.  `argLen` is
the length of the *argument array* `fluids`: the source's
`fluid.index = fluids.length` reads the argument, not `Fluid.saved`.
Returns the updated registry and the argument fluids with their updated
indices. -/
def Fluid.saveGo (argLen : Nat) (saved : List Fluid) : List Fluid → List Fluid × List Fluid
  | [] => (saved, [])
  | f :: rest =>
    match saved.find? (fun item => item.data == f.data) with
    | some twin =>
      let f' := { f with index := twin.index }
      let p := Fluid.saveGo argLen saved rest
      (p.1, f' :: p.2)
    | none =>
      let f' := { f with index := (argLen : ℤ) }
      let p := Fluid.saveGo argLen (saved ++ [f']) rest
      (p.1, f' :: p.2)

/-- `Fluid.save(fluids)`: dedup each fluid against the registry by its
encoded `data`, reusing the twin's index or appending with
`index = fluids.length`; afterwards the whole concatenated buffer is
rewritten to the store (see `Fluid.savedBuffer`). -/
def Fluid.save (saved : List Fluid) (fluids : List Fluid) : List Fluid × List Fluid :=
  Fluid.saveGo fluids.length saved fluids

/-- The buffer `Fluid.save` writes back: the concatenation of every saved
fluid's `data`. -/
def Fluid.savedBuffer (saved : List Fluid) : List Nat :=
  (saved.map Fluid.data).flatten

/-- The fixed ounce to millilitre factor `29.5735295625`. -/
def ozFactor : ℚ := 295735295625 / 10000000000

/-- `Fluid.convertAmount`: identity when the units agree, otherwise
multiply (oz to mL) or divide (mL to oz) by the fixed factor. -/
def Fluid.convertAmount (amount : ℚ) (fromOZ toOZ : Bool) : ℚ :=
  if fromOZ = toOZ then amount
  else if fromOZ && !toOZ then amount * ozFactor
  else amount / ozFactor

/-- `String(n / 10)` in JavaScript for a nonnegative integer `n` of
tenths: `"k"` when `n` is a multiple of ten, otherwise `"k.d"`.  (For
every such `n` the double `n / 10` prints exactly this way.) -/
def natTenthsToString (m : Nat) : String :=
  if m % 10 = 0 then toString (m / 10)
  else toString (m / 10) ++ "." ++ toString (m % 10)

/-- `String(n / 10)` for an arbitrary integer number of tenths. -/
def tenthsToString (n : ℤ) : String :=
  if n < 0 then "-" ++ natTenthsToString n.natAbs else natTenthsToString n.natAbs

/-- `String(n)` for an integer. -/
def intToString (n : ℤ) : String :=
  if n < 0 then "-" ++ toString n.natAbs else toString n.natAbs

/-- `Fluid.representAmount`: convert, then either round to tenths and
print with a forced decimal point plus `"oz"`, or round to a whole number
plus `"mL"`.  The source's `!number.includes(".")` test is true exactly
when the rounded tenths count is a multiple of ten (then `String(n/10)`
printed no decimal point and `".0"` is appended). -/
def Fluid.representAmount (amount : ℚ) (fromOZ toOZ : Bool) : String :=
  let converted := Fluid.convertAmount amount fromOZ toOZ
  if toOZ then
    let n := jsRound (converted * 10)
    let number := if n % 10 = 0 then tenthsToString n ++ ".0" else tenthsToString n
    number ++ "oz"
  else
    intToString (jsRound converted) ++ "mL"

/-- An `Entry` object.  `fluid` is `Option` because the source field can
hold `undefined` (when the fallback `Fluid.shown[0]` does not exist);
`amountTenths` is the exact tenths count behind the float `amount`. -/
structure Entry where
  fluid : Option Fluid
  isOZ : Bool
  amountTenths : Nat
  hour : Nat
  minute : Nat
deriving DecidableEq, Repr

/-- The in-memory float `entry.amount`, recovered from its tenths. -/
def Entry.amount (e : Entry) : ℚ := (e.amountTenths : ℚ) / 10

/-- The amount clamp of the `Entry` (and `DailyLog`) constructor,
`Math.max(0, Math.min(6553.5, Math.round(x * 10) / 10))`, expressed on
tenths: round to tenths, clamp into `0..65535`. -/
def clampTenths (a : ℚ) : Nat := (max 0 (min (jsRound (a * 10)) 65535)).toNat

/-- The `Entry` constructor: resolve a non-`Fluid` argument to
`Fluid.shown[0]` (here the `shown` parameter), coerce the unit flag,
round and clamp the amount, clamp hour into `0..23` and minute into
`0..59`.  Negative or non-numeric hour/minute inputs degrade to `0` in
the source; they are modelled by the `Nat` domain. -/
def mkEntry (shown : List Fluid) (fluid : Option Fluid) (isOZ : Bool) (amount : ℚ)
    (hour minute : Nat) : Entry :=
  { fluid :=
      match fluid with
      | some f => some f
      | none => shown.get? 0
    isOZ := isOZ
    amountTenths := clampTenths amount
    hour := min 23 hour
    minute := min 59 minute }

/-- `Entry.decode`: word 1 holds the unit flag (bit 15), hour (bits 6-10)
and minute (bits 0-5); word 2 the tenths; word 3 the fluid index, looked
up in the registry with `Fluid.saved[0]` as fallback for a missing or
out-of-range index.  Missing words read as `NaN`, which the constructor's
coercions turn into `0` (and an absent fluid resolves via the fallback
chain). -/
def Entry.decode (saved shown : List Fluid) (data : List Nat) : Entry :=
  let c0 := (data.get? 0).getD 0
  let isOZ := c0 / 32768
  let hour := c0 / 64 % 32
  let minute := c0 % 64
  let tenths := (data.get? 1).getD 0
  let fluid :=
    match (data.get? 2).bind (fun i => saved.get? i) with
    | some f => some f
    | none => saved.get? 0
  mkEntry shown fluid (isOZ != 0) ((tenths : ℚ) / 10) hour minute

/-- `Entry.encode`.  When the entry's fluid is unsaved (`index = -1`) the
source calls `Fluid.save(this.fluid)` with a single `Fluid`, but
`Fluid.save` iterates its argument with `for...of`; a `Fluid` is not
iterable, so a `TypeError` is thrown (likewise `this.fluid.index` throws
when the fluid is `undefined`).  Otherwise the three words are produced;
`String.fromCharCode` reduces each argument modulo `2^16`. -/
def Entry.encode (e : Entry) : Except JsError (List Nat) :=
  match e.fluid with
  | none => .error .typeError
  | some f =>
    if f.index = -1 then .error .typeError
    else
      .ok [(if e.isOZ then 32768 else 0) + e.hour % 32 * 64 + e.minute % 64,
        e.amountTenths % 65536,
        (f.index % 65536).toNat]

/-- A `DailyLog` object; `goalTenths` is the exact tenths count behind
the float `goal`. -/
structure DailyLog where
  goalTenths : Nat
  total : ℚ
  isOZ : Bool
  entries : List Entry
deriving DecidableEq, Repr

/-- The `DailyLog` constructor: coerce the unit flag, round and clamp the
goal like an amount; `total` starts at `0` and `entries` empty. -/
def mkDailyLog (isOZ : Bool) (goal : ℚ) : DailyLog :=
  { goalTenths := clampTenths goal, total := 0, isOZ := isOZ, entries := [] }

/-- The entry loop of `DailyLog.decode`: take three words at a time,
decode the entry, add its unit-converted hydration-weighted amount to
the running total and append it.  A short final slice (`substring`
clamps) is decoded as-is, after which the loop exits.  Reading
`entry.fluid.hydration` throws a `TypeError` when the decoded entry's
fluid is `undefined` (empty registry and empty `shown` list). -/
def DailyLog.decodeEntriesGo (saved shown : List Fluid) :
    List Nat → DailyLog → Except JsError DailyLog
  | [], log => .ok log
  | a :: b :: c :: rest, log =>
    let entry := Entry.decode saved shown [a, b, c]
    match entry.fluid with
    | none => .error .typeError
    | some f =>
      DailyLog.decodeEntriesGo saved shown rest
        { log with
          total := log.total + Fluid.convertAmount entry.amount entry.isOZ log.isOZ * f.hydration
          entries := log.entries ++ [entry] }
  | data, log =>
    let entry := Entry.decode saved shown data
    match entry.fluid with
    | none => .error .typeError
    | some f =>
      .ok { log with
        total := log.total + Fluid.convertAmount entry.amount entry.isOZ log.isOZ * f.hydration
        entries := log.entries ++ [entry] }

/-- `DailyLog.decode`: word 1 carries the unit flag in bit 15, word 2 the
goal tenths; then 3-word entry records are decoded until the buffer ends,
recomputing the total from scratch.  Missing header words read as `NaN`
and coerce to `0`. -/
def DailyLog.decode (saved shown : List Fluid) (data : List Nat) : Except JsError DailyLog :=
  let c0 := (data.get? 0).getD 0
  let log := mkDailyLog (c0 / 32768 != 0) ((((data.get? 1).getD 0 : Nat) : ℚ) / 10)
  DailyLog.decodeEntriesGo saved shown (data.drop 2) log

/-- `DailyLog.encode`: the two header words followed by each entry's
3-word record in order; an entry whose encoding throws propagates the
exception. -/
def DailyLog.encode (log : DailyLog) : Except JsError (List Nat) :=
  (log.entries.mapM Entry.encode).map
    fun recs => (if log.isOZ then 32768 else 0) :: log.goalTenths % 65536 :: recs.flatten

/-- `DailyLog.register`: build an entry stamped with the current wall
clock (modelled by the `hour`/`minute` parameters), add its converted,
hydration-weighted amount to the total and append it; the mutated log is
returned (`return this`).  Reading `entry.fluid.hydration` throws when
the resolved fluid is `undefined`. -/
def DailyLog.register (shown : List Fluid) (log : DailyLog) (fluid : Option Fluid)
    (isOZ : Bool) (amount : ℚ) (hour minute : Nat) : Except JsError DailyLog :=
  let entry := mkEntry shown fluid isOZ amount hour minute
  match entry.fluid with
  | none => .error .typeError
  | some f =>
    .ok { log with
      total := log.total + Fluid.convertAmount entry.amount entry.isOZ log.isOZ * f.hydration
      entries := log.entries ++ [entry] }

/-- A `Month` value: a year and a 1-based month number. -/
structure Month where
  year : ℤ
  month : ℤ
deriving DecidableEq, Repr

/-- `Month.next`: `new Month(year + (month > 11), month > 11 ? 1 : month + 1)`
(the boolean coerces to `0`/`1`). -/
def Month.next (m : Month) : Month :=
  { year := m.year + (if m.month > 11 then 1 else 0)
    month := if m.month > 11 then 1 else m.month + 1 }

/-- `Month.previous`: `new Month(year - (month < 2), month < 2 ? 12 : month - 1)`. -/
def Month.previous (m : Month) : Month :=
  { year := m.year - (if m.month < 2 then 1 else 0)
    month := if m.month < 2 then 12 else m.month - 1 }

/-- The proleptic Gregorian leap-year rule. -/
def isLeapYear (y : ℤ) : Bool := y % 4 == 0 && (y % 100 != 0 || y % 400 == 0)

/-- Day count of 1-based month `m` of year `y` in the proleptic Gregorian
calendar. -/
def daysInMonth (y m : ℤ) : ℤ :=
  if m == 2 then (if isLeapYear y then 29 else 28)
  else if m == 4 || m == 6 || m == 9 || m == 11 then 30
  else 31

/-- `Month.getNumberOfDays`: `new Date(year, month, 0).getDate()`, i.e.
day 0 of the *following* 0-based month, which is the last day of this
1-based month.  The host `Date` implements proleptic Gregorian
arithmetic, modelled by `daysInMonth` (exact for years `≥ 100`, months
`1..12`, the domain the calendar UI produces). -/
def Month.getNumberOfDays (mo : Month) : ℤ := daysInMonth mo.year mo.month

/-! ## Concrete fixtures

The built-in water fluid (`new Fluid("Water", "#6CF", 100, true)`), some
named test fluids and a saved registry holding water at index 0. -/

/-- The built-in water fluid. -/
def water : Fluid := mkFluid [87, 97, 116, 101, 114] [35, 54, 67, 70] 100 true

/-- Water as it sits in the registry at position 0 with index 0. -/
def waterAt0 : Fluid := { water with index := 0 }

/-- A fluid named `"a"`, already persisted at registry position 0. -/
def fluidA : Fluid := { mkFluid [97] [35, 49, 50, 51] 50 false with index := 0 }

/-- A fluid named `"b"`, already persisted at registry position 1. -/
def fluidB : Fluid := { mkFluid [98] [35, 52, 53, 54] 60 false with index := 1 }

/-- A fresh fluid named `"c"`, never saved (`index = -1`). -/
def fluidC : Fluid := mkFluid [99] [35, 55, 56, 57] 70 false

/-- A fresh fluid named `"Tea"`, never saved (`index = -1`). -/
def teaFluid : Fluid := mkFluid [84, 101, 97] [35, 48, 56, 102] 40 false

/-- An entry drinking the unsaved tea fluid. -/
def teaEntry : Entry := mkEntry [waterAt0] (some teaFluid) false 8 10 30

/-- An 8 oz water entry at 10:30, against the water-only registry. -/
def waterEntry : Entry := mkEntry [waterAt0] (some waterAt0) true 8 10 30

/-! ## Helper lemmas -/

/-- A hex digit code unit round-trips through its value. -/
theorem hexDigit_roundtrip {c : Nat} (h : isHexLower c = true) :
    hexDigitVal c < 16 ∧ hexDigitChar (hexDigitVal c) = c := by
  simp only [isHexLower, Bool.or_eq_true, Bool.and_eq_true, decide_eq_true_eq] at h
  unfold hexDigitVal hexDigitChar
  split_ifs <;> omega

/-- ASCII lowercasing fixes lowercase hex digits. -/
theorem toLowerAscii_of_hexLower {c : Nat} (h : isHexLower c = true) :
    toLowerAscii c = c := by
  simp only [isHexLower, Bool.or_eq_true, Bool.and_eq_true, decide_eq_true_eq] at h
  unfold toLowerAscii
  split_ifs with hif
  · simp only [Bool.and_eq_true, decide_eq_true_eq] at hif
    omega
  · rfl

/-- A string passing the color regex is a `#` and three hex digits. -/
theorem isValidColor_shape {color : List Nat} (h : isValidColor color = true) :
    ∃ a b c, color = [35, a, b, c] ∧
      isHexLower a = true ∧ isHexLower b = true ∧ isHexLower c = true := by
  match color, h with
  | [x, a, b, c], h =>
    simp only [isValidColor, Bool.and_eq_true, beq_iff_eq] at h
    exact ⟨a, b, c, by rw [h.1.1.1], h.1.1.2, h.1.2, h.2⟩

/-- ASCII lowercasing fixes a string passing the color regex. -/
theorem toLowerAscii_valid {color : List Nat} (h : isValidColor color = true) :
    color.map toLowerAscii = color := by
  obtain ⟨a, b, c, rfl, ha, hb, hc⟩ := isValidColor_shape h
  simp only [List.map, toLowerAscii_of_hexLower ha, toLowerAscii_of_hexLower hb,
    toLowerAscii_of_hexLower hc]
  norm_num [toLowerAscii]

/-- Normal form of the constructor on an already-valid color string. -/
theorem mkFluid_valid (name : List Nat) {color : List Nat}
    (hcolor : isValidColor color = true) (hyd : ℤ) (sh : Bool) :
    mkFluid name color hyd sh =
      { name := name.take 31
        color := color
        hydration := (((max 0 (min 100 hyd)).toNat : ℚ)) / 100
        alwaysShown := sh
        data := ((if sh then 32768 else 0)
            + (max 0 (min 100 hyd)).toNat * 256 + (name.take 31).length)
          :: parseColor12 color :: name.take 31
        index := -1 } := by
  rw [mkFluid, toLowerAscii_valid hcolor, if_pos hcolor]

/-- `toHex3` inverts the 12-bit packing of three hex digits. -/
theorem toHex3_digits {a b c : Nat} (ha : isHexLower a = true)
    (hb : isHexLower b = true) (hc : isHexLower c = true) :
    hexDigitVal a * 256 + hexDigitVal b * 16 + hexDigitVal c < 4096 ∧
    toHex3 (hexDigitVal a * 256 + hexDigitVal b * 16 + hexDigitVal c) = [a, b, c] := by
  obtain ⟨ha1, ha2⟩ := hexDigit_roundtrip ha
  obtain ⟨hb1, hb2⟩ := hexDigit_roundtrip hb
  obtain ⟨hc1, hc2⟩ := hexDigit_roundtrip hc
  refine ⟨by omega, ?_⟩
  unfold toHex3
  have h1 : (hexDigitVal a * 256 + hexDigitVal b * 16 + hexDigitVal c) / 256 % 16 =
      hexDigitVal a := by omega
  have h2 : (hexDigitVal a * 256 + hexDigitVal b * 16 + hexDigitVal c) / 16 % 16 =
      hexDigitVal b := by omega
  have h3 : (hexDigitVal a * 256 + hexDigitVal b * 16 + hexDigitVal c) % 16 =
      hexDigitVal c := by omega
  rw [h1, h2, h3, ha2, hb2, hc2]

/-! ## Claims -/

/-- Claim C4: for every valid fluid (name of at most 31 units, 3-digit
lowercase hex color, hydration percentage 0-100, visibility flag),
decoding the encoded record yields a fluid agreeing on name, color,
hydration factor and visibility. -/
theorem C4_fluid_roundtrip (name color : List Nat) (hyd : ℤ) (sh : Bool)
    (hname : name.length ≤ 31) (hcolor : isValidColor color = true)
    (hhyd1 : 0 ≤ hyd) (hhyd2 : hyd ≤ 100) :
    (Fluid.decode (mkFluid name color hyd sh).data).name = (mkFluid name color hyd sh).name ∧
    (Fluid.decode (mkFluid name color hyd sh).data).color = (mkFluid name color hyd sh).color ∧
    (Fluid.decode (mkFluid name color hyd sh).data).hydration
      = (mkFluid name color hyd sh).hydration ∧
    (Fluid.decode (mkFluid name color hyd sh).data).alwaysShown
      = (mkFluid name color hyd sh).alwaysShown := by
  obtain ⟨a, b, c, rfl, ha, hb, hc⟩ := isValidColor_shape hcolor
  have htake : name.take 31 = name := List.take_of_length_le hname
  set pct : Nat := (max 0 (min 100 hyd)).toNat with hpct
  have hpct100 : pct ≤ 100 := by omega
  obtain ⟨hv4096, hhex3⟩ := toHex3_digits ha hb hc
  have hpc : parseColor12 [35, a, b, c] =
      hexDigitVal a * 256 + hexDigitVal b * 16 + hexDigitVal c := rfl
  rw [mkFluid_valid name hcolor hyd sh, htake]
  set w0 : Nat := (if sh then 32768 else 0) + pct * 256 + name.length with hw0
  have hbit : w0 / 32768 = if sh then 1 else 0 := by
    cases sh <;> simp [hw0] <;> omega
  have hpctx : min 100 (w0 / 256 % 128) = pct := by
    cases sh <;> simp [hw0] <;> omega
  have hlen : w0 % 32 = name.length := by
    cases sh <;> simp [hw0] <;> omega
  have hvlt : parseColor12 [35, a, b, c] % 4096 =
      hexDigitVal a * 256 + hexDigitVal b * 16 + hexDigitVal c := by
    rw [hpc]; exact Nat.mod_eq_of_lt hv4096
  rw [Fluid.decode]
  simp only [List.get?_cons_zero, List.get?_cons_succ, Option.getD_some, List.drop,
    hvlt, hhex3, hbit, hpctx, hlen, List.take_length]
  have hsh : ((if sh then 1 else 0) != 0) = sh := by cases sh <;> rfl
  rw [hsh, mkFluid_valid name hcolor (pct : ℤ) sh, htake]
  have hclamp : (max 0 (min 100 ((pct : ℕ) : ℤ))).toNat = pct := by omega
  rw [hclamp]
  exact ⟨rfl, rfl, rfl, rfl⟩

/-- Witness for C4 at a concrete fluid: name `"Tea"`, color `"#08f"`,
hydration 40, not always shown. -/
theorem C4_witness :
    (Fluid.decode (mkFluid [84, 101, 97] [35, 48, 56, 102] 40 false).data).name
      = (mkFluid [84, 101, 97] [35, 48, 56, 102] 40 false).name ∧
    (Fluid.decode (mkFluid [84, 101, 97] [35, 48, 56, 102] 40 false).data).color
      = (mkFluid [84, 101, 97] [35, 48, 56, 102] 40 false).color ∧
    (Fluid.decode (mkFluid [84, 101, 97] [35, 48, 56, 102] 40 false).data).hydration
      = (mkFluid [84, 101, 97] [35, 48, 56, 102] 40 false).hydration ∧
    (Fluid.decode (mkFluid [84, 101, 97] [35, 48, 56, 102] 40 false).data).alwaysShown
      = (mkFluid [84, 101, 97] [35, 48, 56, 102] 40 false).alwaysShown :=
  C4_fluid_roundtrip [84, 101, 97] [35, 48, 56, 102] 40 false (by decide) (by decide)
    (by decide) (by decide)

/-- Claim C9: the day count honors leap years (February 2024 has 29 days,
February 2023 has 28) and month navigation wraps across year boundaries:
`next` maps month 12 to month 1 of the following year and `previous`
maps month 1 to month 12 of the preceding year. -/
theorem C9_calendar :
    Month.getNumberOfDays ⟨2024, 2⟩ = 29 ∧ Month.getNumberOfDays ⟨2023, 2⟩ = 28 ∧
    Month.next ⟨2023, 12⟩ = ⟨2024, 1⟩ ∧ Month.previous ⟨2024, 1⟩ = ⟨2023, 12⟩ ∧
    (∀ m : Month, m.month = 12 → m.next = ⟨m.year + 1, 1⟩) ∧
    (∀ m : Month, m.month = 1 → m.previous = ⟨m.year - 1, 12⟩) := by
  refine ⟨by decide, by decide, by decide, by decide, ?_, ?_⟩
  · intro m h
    simp [Month.next, h]
  · intro m h
    simp [Month.previous, h]

/-- Witness for C9's wrap-around clauses at December 2020 and
January 2020. -/
theorem C9_witness :
    Month.next ⟨2020, 12⟩ = ⟨2021, 1⟩ ∧ Month.previous ⟨2020, 1⟩ = ⟨2019, 12⟩ :=
  ⟨C9_calendar.2.2.2.2.1 ⟨2020, 12⟩ rfl, C9_calendar.2.2.2.2.2 ⟨2020, 1⟩ rfl⟩

/-- Claim C10: `register` appends exactly one entry at the end of the
list, adds that entry's unit-converted hydration-weighted amount to the
total, leaves the goal, the unit flag and the earlier entries unchanged,
and returns the updated log. -/
theorem C10_register_appends (shown : List Fluid) (log : DailyLog) (f : Fluid)
    (isOZ : Bool) (amount : ℚ) (hour minute : Nat) :
    ∃ e log2,
      DailyLog.register shown log (some f) isOZ amount hour minute = Except.ok log2 ∧
      log2.entries = log.entries ++ [e] ∧
      e.fluid = some f ∧ e.isOZ = isOZ ∧
      log2.total = log.total + Fluid.convertAmount e.amount e.isOZ log.isOZ * f.hydration ∧
      log2.goalTenths = log.goalTenths ∧ log2.isOZ = log.isOZ :=
  ⟨mkEntry shown (some f) isOZ amount hour minute, _, rfl, rfl, rfl, rfl, rfl, rfl, rfl⟩

/-- Claim C2 (refuted by the code): encoding an entry whose fluid is
unsaved (`index = -1`) does not persist the fluid and return a record;
it throws a `TypeError`, because `Entry.encode` passes a single `Fluid`
to `Fluid.save`, which iterates its argument with `for...of`. -/
theorem C2_encode_throws :
    teaEntry.fluid.map Fluid.index = some (-1) ∧
    Entry.encode teaEntry = Except.error JsError.typeError :=
  ⟨rfl, rfl⟩

/-- Claim C3 (refuted by the code): `Fluid.save` assigns an appended
fluid `index = fluids.length` — the length of the *argument array*, not
the registry position.  Saving the fresh fluid `"c"` into a registry
already holding `"a"` and `"b"` stores it at position 2 but stamps it
with index 1, and re-decoding the persisted buffer assigns it index 2. -/
theorem C3_save_index_mismatch :
    (Fluid.save [fluidA, fluidB] [fluidC]).2.map Fluid.index = [1] ∧
    (Fluid.save [fluidA, fluidB] [fluidC]).1.map Fluid.name = [[97], [98], [99]] ∧
    (Fluid.save [fluidA, fluidB] [fluidC]).1.map Fluid.index = [0, 1, 1] ∧
    (Fluid.decodeCollection
        (some (Fluid.savedBuffer (Fluid.save [fluidA, fluidB] [fluidC]).1))).map
      Fluid.name = [[97], [98], [99]] ∧
    (Fluid.decodeCollection
        (some (Fluid.savedBuffer (Fluid.save [fluidA, fluidB] [fluidC]).1))).map
      Fluid.index = [0, 1, 2] := by
  refine ⟨rfl, rfl, rfl, rfl, rfl⟩

/-- `Fluid.save` on a one-element array, unfolded. -/
theorem save_singleton (saved : List Fluid) (f : Fluid) :
    Fluid.save saved [f] =
      match saved.find? (fun item => item.data == f.data) with
      | some twin => (saved, [{ f with index := twin.index }])
      | none => (saved ++ [{ f with index := 1 }], [{ f with index := 1 }]) := by
  simp only [Fluid.save, Fluid.saveGo, List.length_cons, List.length_nil]
  cases saved.find? (fun item => item.data == f.data) <;> rfl

/-- Claim C7: saving a fluid twice, or saving two fluids with
byte-identical encoded records, never grows the registry on the second
save and assigns the same index both times. -/
theorem C7_save_dedup (saved : List Fluid) (f g : Fluid) (hdata : g.data = f.data) :
    ∃ s1 f1, Fluid.save saved [f] = (s1, [f1]) ∧
      Fluid.save s1 [f1] = (s1, [f1]) ∧
      ∃ g1, Fluid.save s1 [g] = (s1, [g1]) ∧ g1.index = f1.index := by
  have hpredg : (fun item : Fluid => item.data == g.data)
      = (fun item : Fluid => item.data == f.data) := by
    funext item; rw [hdata]
  cases h : saved.find? (fun item => item.data == f.data) with
  | some twin =>
    refine ⟨saved, { f with index := twin.index }, ?_, ?_, ?_⟩
    · rw [save_singleton, h]
    · rw [save_singleton]
      have hp : (fun item : Fluid => item.data == ({ f with index := twin.index } : Fluid).data)
          = (fun item : Fluid => item.data == f.data) := rfl
      rw [hp, h]
    · refine ⟨{ g with index := twin.index }, ?_, rfl⟩
      rw [save_singleton, hpredg, h]
  | none =>
    refine ⟨saved ++ [{ f with index := 1 }], { f with index := 1 }, ?_, ?_, ?_⟩
    · rw [save_singleton, h]
    · rw [save_singleton]
      have hp : (fun item : Fluid => item.data == ({ f with index := 1 } : Fluid).data)
          = (fun item : Fluid => item.data == f.data) := rfl
      rw [hp, List.find?_append, h]
      have hself : (List.find? (fun item : Fluid => item.data == f.data)
          [{ f with index := 1 }]) = some { f with index := 1 } := by
        simp [List.find?]
      rw [hself]
      rfl
    · refine ⟨{ g with index := 1 }, ?_, rfl⟩
      rw [save_singleton, hpredg, List.find?_append, h]
      have hself : (List.find? (fun item : Fluid => item.data == f.data)
          [{ f with index := 1 }]) = some { f with index := 1 } := by
        simp [List.find?]
      rw [hself]
      rfl

/-- Witness for C7: save the fresh `"c"` fluid into the empty registry,
then save a structurally identical copy carrying a different stale
index. -/
theorem C7_witness :
    ∃ s1 f1, Fluid.save [] [fluidC] = (s1, [f1]) ∧
      Fluid.save s1 [f1] = (s1, [f1]) ∧
      ∃ g1, Fluid.save s1 [{ fluidC with index := 5 }] = (s1, [g1]) ∧ g1.index = f1.index :=
  C7_save_dedup [] fluidC { fluidC with index := 5 } rfl

/-- A valid entry against a registry `saved`: time and amount fields in
the ranges the constructor clamps into, and a fluid persisted at a valid
in-range index whose registry slot holds that very fluid. -/
def ValidEntryIn (saved : List Fluid) (e : Entry) : Prop :=
  e.hour ≤ 23 ∧ e.minute ≤ 59 ∧ e.amountTenths ≤ 65535 ∧
  ∃ f, e.fluid = some f ∧ 0 ≤ f.index ∧ f.index < 65536 ∧
    saved.get? f.index.toNat = some f

/-- `Math.round` fixes integers. -/
theorem jsRound_natCast (n : ℕ) : jsRound (n : ℚ) = n := by
  unfold jsRound
  rw [Int.floor_eq_iff]
  constructor
  · push_cast
    linarith
  · push_cast
    linarith

/-- The constructor's amount clamp fixes an in-range tenths count. -/
theorem clampTenths_coe (t : ℕ) (h : t ≤ 65535) : clampTenths ((t : ℚ) / 10) = t := by
  unfold clampTenths
  have h10 : ((t : ℚ) / 10) * 10 = (t : ℚ) := by field_simp
  rw [h10, jsRound_natCast]
  omega

/-- Core entry round-trip: a valid entry encodes to a 3-word record that
decodes back to the same entry. -/
theorem entry_roundtrip_core (saved shown : List Fluid) (e : Entry)
    (h : ValidEntryIn saved e) :
    ∃ r, Entry.encode e = Except.ok r ∧ r.length = 3 ∧
      Entry.decode saved shown r = e := by
  obtain ⟨fl, oz, t, hr, mi⟩ := e
  obtain ⟨hh, hm, ha, f, hf, hge, hlt, hsaved⟩ := h
  simp only at hh hm ha hf
  have hidx : f.index % 65536 = f.index := Int.emod_eq_of_lt hge hlt
  have hne : ¬ f.index = -1 := by omega
  refine ⟨[(if oz then 32768 else 0) + hr % 32 * 64 + mi % 64,
    t % 65536, (f.index % 65536).toNat], ?_, rfl, ?_⟩
  · simp only [Entry.encode, hf, if_neg hne]
  · have hh32 : hr % 32 = hr := Nat.mod_eq_of_lt (by omega)
    have hm64 : mi % 64 = mi := Nat.mod_eq_of_lt (by omega)
    have ht65 : t % 65536 = t := Nat.mod_eq_of_lt (by omega)
    set w0 : Nat := (if oz then 32768 else 0) + hr % 32 * 64 + mi % 64 with hw0
    have hbit : w0 / 32768 = if oz then 1 else 0 := by
      cases oz <;> simp [hw0] <;> omega
    have hhr : w0 / 64 % 32 = hr := by
      cases oz <;> simp [hw0] <;> omega
    have hmi : w0 % 64 = mi := by
      cases oz <;> simp [hw0] <;> omega
    simp only [Entry.decode, List.get?_cons_zero, List.get?_cons_succ, Option.getD_some,
      Option.some_bind, hidx, hsaved, hbit, hhr, hmi, ht65]
    have hsh : ((if oz then 1 else 0) != 0) = oz := by cases oz <;> rfl
    rw [hsh]
    simp only [mkEntry, clampTenths_coe t ha]
    rw [hf]
    simp only [Entry.mk.injEq]
    refine ⟨?_, ?_, ?_, ?_, ?_⟩ <;> first | rfl | trivial | omega

/-- Claim C5: for every valid entry, with its fluid saved at a valid
index in a stable registry, decoding the encoded 3-word record recovers
the entry exactly: fluid reference, unit flag, amount, hour and
minute. -/
theorem C5_entry_roundtrip (saved shown : List Fluid) (e : Entry)
    (h : ValidEntryIn saved e) :
    ∃ r, Entry.encode e = Except.ok r ∧ Entry.decode saved shown r = e := by
  obtain ⟨r, h1, _, h3⟩ := entry_roundtrip_core saved shown e h
  exact ⟨r, h1, h3⟩

/-- Witness for C5: the 8 oz water entry against the water-only
registry. -/
theorem C5_witness :
    ∃ r, Entry.encode waterEntry = Except.ok r ∧
      Entry.decode [waterAt0] [waterAt0] r = waterEntry := by
  apply C5_entry_roundtrip
  have hct : waterEntry.amountTenths = 80 := by
    simp only [waterEntry, mkEntry]
    unfold clampTenths jsRound
    norm_num
    decide
  refine ⟨by decide, by decide, by omega, waterAt0, rfl, by decide, by decide, rfl⟩

/-- The amount one entry contributes to a log's total: its amount
converted into the log's unit, weighted by its fluid's hydration
ratio. -/
def entryContribution (logOZ : Bool) (e : Entry) : ℚ :=
  Fluid.convertAmount e.amount e.isOZ logOZ *
    (match e.fluid with
     | some f => f.hydration
     | none => 0)

/-- A valid daily log against a registry: an in-range goal, a total that
is the sum of its entries' contributions (as `register` maintains it),
and valid entries throughout. -/
def ValidLog (saved : List Fluid) (log : DailyLog) : Prop :=
  log.goalTenths ≤ 65535 ∧
  log.total = (log.entries.map (entryContribution log.isOZ)).sum ∧
  ∀ e ∈ log.entries, ValidEntryIn saved e

/-- Core list lemma for the log round-trip: a list of valid entries
encodes via `mapM` to records whose concatenation the decode loop folds
back into exactly those entries, with their summed contributions added
to the running total. -/
theorem log_roundtrip_core (saved shown : List Fluid) (es : List Entry)
    (h : ∀ e ∈ es, ValidEntryIn saved e) :
    ∃ rs : List (List Nat), es.mapM Entry.encode = Except.ok rs ∧
      ∀ log : DailyLog, DailyLog.decodeEntriesGo saved shown rs.flatten log =
        Except.ok { log with
          total := log.total + (es.map (entryContribution log.isOZ)).sum
          entries := log.entries ++ es } := by
  induction es with
  | nil =>
    refine ⟨[], rfl, fun log => ?_⟩
    simp [DailyLog.decodeEntriesGo]
  | cons e es ih =>
    have he := h e (List.mem_cons_self e es)
    have hes : ∀ x ∈ es, ValidEntryIn saved x := fun x hx => h x (List.mem_cons_of_mem e hx)
    obtain ⟨r, her, hr3, hdec⟩ := entry_roundtrip_core saved shown e he
    obtain ⟨rs, hrs, hgo⟩ := ih hes
    refine ⟨r :: rs, ?_, ?_⟩
    · rw [List.mapM_cons, her, hrs]
      rfl
    · intro log
      obtain ⟨a, b, c, rfl⟩ := List.length_eq_three.mp hr3
      obtain ⟨f, hfl, _⟩ := he.2.2.2
      have hflat : ([a, b, c] :: rs).flatten = a :: b :: c :: rs.flatten := by simp
      rw [hflat]
      simp only [DailyLog.decodeEntriesGo, hdec, hfl]
      rw [hgo]
      congr 1
      simp only [List.map_cons, List.sum_cons, List.append_assoc, List.singleton_append,
        entryContribution, hfl]
      congr 1
      ring

/-- Claim C6: for every valid daily log whose entries' fluids sit at
stable registry indices, decoding the encoded buffer yields a log with
the same entry sequence in the same order and the same total, the total
being recomputed by summing the decoded entries' converted, weighted
amounts (no stored total exists in the buffer). -/
theorem C6_log_roundtrip (saved shown : List Fluid) (log : DailyLog)
    (h : ValidLog saved log) :
    ∃ buf log2, DailyLog.encode log = Except.ok buf ∧
      DailyLog.decode saved shown buf = Except.ok log2 ∧
      log2.entries = log.entries ∧ log2.total = log.total ∧
      log2.total = (log2.entries.map (entryContribution log2.isOZ)).sum := by
  obtain ⟨hg, ht, hv⟩ := h
  obtain ⟨rs, hrs, hgo⟩ := log_roundtrip_core saved shown log.entries hv
  have hgmod : log.goalTenths % 65536 = log.goalTenths := Nat.mod_eq_of_lt (by omega)
  refine ⟨(if log.isOZ then 32768 else 0) :: log.goalTenths % 65536 :: rs.flatten,
    ⟨log.goalTenths, log.total, log.isOZ, log.entries⟩, ?_, ?_, rfl, rfl, ?_⟩
  · rw [DailyLog.encode, hrs]
    rfl
  · have hbit : ((if log.isOZ then 32768 else 0) / 32768 : ℕ) = if log.isOZ then 1 else 0 := by
      cases hoz : log.isOZ <;> simp
    have hsh : (((if log.isOZ then 1 else 0) : ℕ) != 0) = log.isOZ := by
      cases hoz : log.isOZ <;> rfl
    have hmk : mkDailyLog log.isOZ ((log.goalTenths : ℚ) / 10) =
        ⟨log.goalTenths, 0, log.isOZ, []⟩ := by
      rw [mkDailyLog, clampTenths_coe log.goalTenths hg]
    simp only [DailyLog.decode, List.get?_cons_zero, List.get?_cons_succ, Option.getD_some,
      List.drop, hbit, hsh, hgmod, hmk]
    rw [hgo ⟨log.goalTenths, 0, log.isOZ, []⟩]
    simp only [ht]
    congr 2
    simp
  · simp only [ht]

/-- Witness for C6: a one-entry log (8 oz of water, goal 64 oz, totals
in ounces) against the water-only registry. -/
theorem C6_witness :
    ∃ buf log2,
      DailyLog.encode ⟨640, 8, true, [waterEntry]⟩ = Except.ok buf ∧
      DailyLog.decode [waterAt0] [waterAt0] buf = Except.ok log2 ∧
      log2.entries = (⟨640, 8, true, [waterEntry]⟩ : DailyLog).entries ∧
      log2.total = (⟨640, 8, true, [waterEntry]⟩ : DailyLog).total ∧
      log2.total = (log2.entries.map (entryContribution log2.isOZ)).sum := by
  apply C6_log_roundtrip
  have hct : waterEntry.amountTenths = 80 := by
    simp only [waterEntry, mkEntry]
    unfold clampTenths jsRound
    norm_num
    decide
  refine ⟨by decide, ?_, ?_⟩
  · have hamt : waterEntry.amount = 8 := by
      rw [Entry.amount, hct]
      norm_num
    have hhyd : waterAt0.hydration = 1 := by
      rw [show waterAt0.hydration = ((max 0 (min 100 (100 : ℤ))).toNat : ℚ) / 100 from rfl]
      rw [show (max 0 (min 100 (100 : ℤ))).toNat = 100 from rfl]
      norm_num
    show (8 : ℚ) =
      Fluid.convertAmount waterEntry.amount waterEntry.isOZ true * waterAt0.hydration + 0
    rw [hamt, hhyd, show waterEntry.isOZ = true from rfl]
    simp only [Fluid.convertAmount]
    norm_num
  · intro e he
    simp only [List.mem_singleton] at he
    subst he
    exact ⟨by decide, by decide, by omega, waterAt0, rfl, by decide, by decide, rfl⟩

/-- Claim C1 (refuted by the code): decoding a 9-word buffer — length
`2 + 3*2 + 1`, not a whole number of entry records after the header —
does not fail; it returns a log with three parsed entries, the truncated
trailing record included. -/
theorem C1_counterexample :
    (DailyLog.decode [] [water] [0, 0, 0, 0, 0, 0, 0, 0, 0]).map
      (fun l => l.entries.length) = Except.ok 3 := rfl

/-- The fluid field of a decoded entry, written out. -/
theorem decode_fluid (saved shown : List Fluid) (d : List Nat) :
    (Entry.decode saved shown d).fluid =
      match (match (d.get? 2).bind (fun i => saved.get? i) with
        | some f => some f
        | none => saved.get? 0) with
      | some f => some f
      | none => shown.get? 0 := rfl

/-- A decoded entry's fluid resolves whenever the fallback list `shown`
is nonempty. -/
theorem decode_fluid_isSome (saved shown : List Fluid) (hs : shown ≠ []) (d : List Nat) :
    ∃ f, (Entry.decode saved shown d).fluid = some f := by
  rw [decode_fluid]
  cases hm : (match (d.get? 2).bind (fun i => saved.get? i) with
      | some f => some f
      | none => saved.get? 0) with
  | some f => exact ⟨f, rfl⟩
  | none =>
    show ∃ f, shown.get? 0 = some f
    match shown, hs with
    | s :: _, _ => exact ⟨s, rfl⟩

/-- The decode loop never fails when the fallback fluid exists, and
parses `⌈len/3⌉` records from `len` words. -/
theorem decodeEntriesGo_total (saved shown : List Fluid) (hs : shown ≠ []) :
    ∀ (n : ℕ) (data : List Nat), data.length ≤ n → ∀ log : DailyLog,
      ∃ log2, DailyLog.decodeEntriesGo saved shown data log = Except.ok log2 ∧
        log2.entries.length = log.entries.length + (data.length + 2) / 3 := by
  intro n
  induction n with
  | zero =>
    intro data hd log
    have hnil : data = [] := List.eq_nil_of_length_eq_zero (by omega)
    subst hnil
    exact ⟨log, rfl, by simp [DailyLog.decodeEntriesGo]⟩
  | succ n ih =>
    intro data hd log
    match data with
    | [] => exact ⟨log, rfl, by simp [DailyLog.decodeEntriesGo]⟩
    | [a] =>
      obtain ⟨f, hf⟩ := decode_fluid_isSome saved shown hs [a]
      refine ⟨{ log with
          total := log.total + Fluid.convertAmount (Entry.decode saved shown [a]).amount
            (Entry.decode saved shown [a]).isOZ log.isOZ * f.hydration
          entries := log.entries ++ [Entry.decode saved shown [a]] }, ?_, ?_⟩
      · simp only [DailyLog.decodeEntriesGo, hf]
      · simp only [List.length_append, List.length_singleton, List.length_cons,
          List.length_nil]
    | [a, b] =>
      obtain ⟨f, hf⟩ := decode_fluid_isSome saved shown hs [a, b]
      refine ⟨{ log with
          total := log.total + Fluid.convertAmount (Entry.decode saved shown [a, b]).amount
            (Entry.decode saved shown [a, b]).isOZ log.isOZ * f.hydration
          entries := log.entries ++ [Entry.decode saved shown [a, b]] }, ?_, ?_⟩
      · simp only [DailyLog.decodeEntriesGo, hf]
      · simp only [List.length_append, List.length_singleton, List.length_cons,
          List.length_nil]
    | a :: b :: c :: rest =>
      obtain ⟨f, hf⟩ := decode_fluid_isSome saved shown hs [a, b, c]
      have hlen : rest.length ≤ n := by
        simp only [List.length_cons] at hd
        omega
      obtain ⟨log2, hgo, hl⟩ := ih rest hlen
        { log with
          total := log.total + Fluid.convertAmount (Entry.decode saved shown [a, b, c]).amount
            (Entry.decode saved shown [a, b, c]).isOZ log.isOZ * f.hydration
          entries := log.entries ++ [Entry.decode saved shown [a, b, c]] }
      refine ⟨log2, ?_, ?_⟩
      · simp only [DailyLog.decodeEntriesGo, hf]
        exact hgo
      · simp only [List.length_append, List.length_singleton, List.length_cons,
          List.length_nil] at hl ⊢
        omega

/-- Claim C1, amended: `DailyLog.decode` never reports a failure as long
as the fallback fluid exists (the startup water registration keeps
`Fluid.shown` nonempty); a buffer of any length yields a log with
`⌊len/3⌋` entries, a truncated trailing record being decoded with its
missing words as zero rather than rejected. -/
theorem C1_decode_never_fails (saved shown : List Fluid) (data : List Nat)
    (hs : shown ≠ []) :
    ∃ log2, DailyLog.decode saved shown data = Except.ok log2 ∧
      log2.entries.length = data.length / 3 := by
  obtain ⟨log2, hgo, hl⟩ := decodeEntriesGo_total saved shown hs (data.drop 2).length
    (data.drop 2) le_rfl
    (mkDailyLog ((((data.get? 0).getD 0) / 32768) != 0) ((((data.get? 1).getD 0 : Nat) : ℚ) / 10))
  refine ⟨log2, hgo, ?_⟩
  rw [hl]
  simp only [mkDailyLog, List.length_nil, List.length_drop]
  omega

/-- Witness for C1's amended claim: a 5-word buffer decodes to one
entry. -/
theorem C1_witness :
    ∃ log2, DailyLog.decode [] [water] [0, 0, 0, 0, 0] = Except.ok log2 ∧
      log2.entries.length = [0, 0, 0, 0, 0].length / 3 :=
  C1_decode_never_fails [] [water] [0, 0, 0, 0, 0] (by simp)

/-- String concatenation is associative. -/
theorem string_append_assoc (a b c : String) : a ++ b ++ c = a ++ (b ++ c) := by
  obtain ⟨la⟩ := a
  obtain ⟨lb⟩ := b
  obtain ⟨lc⟩ := c
  show String.mk (la ++ lb ++ lc) = String.mk (la ++ (lb ++ lc))
  rw [List.append_assoc]

/-- Claim C8 (refuted on its examples): the formatter emits the unit
suffix with no space: eight ounces renders as `"8.0oz"`, not
`"8.0 oz"`, and as `"237mL"`, not `"237 mL"`. -/
theorem C8_counterexample :
    Fluid.representAmount 8 true true = "8.0oz" ∧ "8.0oz" ≠ "8.0 oz" ∧
    Fluid.representAmount 8 true false = "237mL" ∧ "237mL" ≠ "237 mL" := by
  have h1 : jsRound (Fluid.convertAmount 8 true true * 10) = 80 := by
    norm_num [Fluid.convertAmount, jsRound]
  have h2 : jsRound (Fluid.convertAmount 8 true false) = 237 := by
    norm_num [Fluid.convertAmount, jsRound, ozFactor]
  refine ⟨?_, by decide, ?_, by decide⟩
  · simp only [Fluid.representAmount]
    rw [h1]
    decide
  · simp only [Fluid.representAmount]
    rw [h2]
    decide

/-- Claim C8, amended: formatting converts and then rounds at the
presentation boundary — the ounce form always carries exactly one
decimal digit (`k.d` with `k*10 + d` the rounded tenths) directly
followed by `"oz"`, and the millilitre form is the rounded whole number
directly followed by `"mL"`; the formatter is a pure function of its
arguments. -/
theorem C8_format_amended (a : ℚ) (fromOZ : Bool) (ha : 0 ≤ a) :
    (∃ k d : ℕ, d < 10 ∧
      Fluid.representAmount a fromOZ true = toString k ++ "." ++ toString d ++ "oz" ∧
      ((k * 10 + d : ℕ) : ℤ) = jsRound (Fluid.convertAmount a fromOZ true * 10)) ∧
    ∃ m : ℕ, Fluid.representAmount a fromOZ false = toString m ++ "mL" ∧
      ((m : ℕ) : ℤ) = jsRound (Fluid.convertAmount a fromOZ false) := by
  have hcnn : ∀ toOZ : Bool, 0 ≤ Fluid.convertAmount a fromOZ toOZ := by
    intro t
    unfold Fluid.convertAmount ozFactor
    split_ifs <;> positivity
  constructor
  · have hshape : Fluid.representAmount a fromOZ true =
        (if jsRound (Fluid.convertAmount a fromOZ true * 10) % 10 = 0
          then tenthsToString (jsRound (Fluid.convertAmount a fromOZ true * 10)) ++ ".0"
          else tenthsToString (jsRound (Fluid.convertAmount a fromOZ true * 10))) ++ "oz" := rfl
    rw [hshape]
    set n := jsRound (Fluid.convertAmount a fromOZ true * 10) with hn
    have hn0 : 0 ≤ n := by
      rw [hn]
      unfold jsRound
      refine Int.floor_nonneg.mpr ?_
      have := hcnn true
      nlinarith
    have habs : (n.natAbs : ℤ) = n := Int.natAbs_of_nonneg hn0
    rw [tenthsToString, if_neg (not_lt.mpr hn0)]
    by_cases hmod : n % 10 = 0
    · refine ⟨n.natAbs / 10, 0, by norm_num, ?_, by omega⟩
      rw [if_pos hmod, natTenthsToString, if_pos (by omega)]
      rw [show toString (0 : ℕ) = "0" from rfl]
      congr 1
      rw [string_append_assoc]
      congr 1
    · refine ⟨n.natAbs / 10, n.natAbs % 10, by omega, ?_, by omega⟩
      rw [if_neg hmod, natTenthsToString, if_neg (by omega)]
  · have hshape : Fluid.representAmount a fromOZ false =
        intToString (jsRound (Fluid.convertAmount a fromOZ false)) ++ "mL" := rfl
    rw [hshape]
    set n := jsRound (Fluid.convertAmount a fromOZ false) with hn
    have hn0 : 0 ≤ n := by
      rw [hn]
      unfold jsRound
      refine Int.floor_nonneg.mpr ?_
      have := hcnn false
      linarith
    refine ⟨n.natAbs, ?_, Int.natAbs_of_nonneg hn0⟩
    rw [intToString, if_neg (not_lt.mpr hn0)]

/-- Witness for C8's amended claim at eight ounces. -/
theorem C8_witness :
    (∃ k d : ℕ, d < 10 ∧
      Fluid.representAmount 8 true true = toString k ++ "." ++ toString d ++ "oz" ∧
      ((k * 10 + d : ℕ) : ℤ) = jsRound (Fluid.convertAmount 8 true true * 10)) ∧
    ∃ m : ℕ, Fluid.representAmount 8 true false = toString m ++ "mL" ∧
      ((m : ℕ) : ℤ) = jsRound (Fluid.convertAmount 8 true false) :=
  C8_format_amended 8 true (by norm_num)

end Moist

